import Mathlib

/-!
Verification of the tool-orchestration core of the Claude 4 deep-research
assistant (repository firecrawl-app-examples, file
src/claude-4-deep-research/src/claude_deep_research_app.py).

The visible source is the Streamlit UI glue (function main and
get_core_components).  The core components (ClientManager, ResearchEngine,
ChatEngine in core.py, and the constants in config.py) are not part of the
source tree; where a claim depends on them they are modelled from the
specification, and each such definition says so in its doc comment.
-/

namespace DeepResearch

/-- A chat message as stored in the Streamlit session log:
a dict with keys role and content (both strings) in the source. -/
structure Message where
  role : String
  content : String
deriving Repr, DecidableEq

/-- The research configuration triple read from the three sidebar sliders
(Research Depth, Time Limit, Max URLs). -/
structure ResearchConfig where
  max_depth : Nat
  time_limit_seconds : Nat
  max_urls : Nat
deriving Repr, DecidableEq

/-- Embeds the value a Streamlit slider `st.slider(label, lo, hi, default)`
can hand back to the script: the widget constrains the selected value to
the closed interval [lo, hi], so the script observes the clamp of the
selection.  `choice` is the raw selection. -/
def slider (lo hi choice : Nat) : Nat :=
  min hi (max lo choice)

/-- The config built from the three sidebar sliders of main
(claude_deep_research_app.py lines 74-94): Research Depth on [1,10],
Time Limit on [30,300], Max URLs on [1,100]. -/
def sliderConfig (rawDepth rawTime rawUrls : Nat) : ResearchConfig :=
  { max_depth := slider 1 10 rawDepth
  , time_limit_seconds := slider 30 300 rawTime
  , max_urls := slider 1 100 rawUrls }

/-- The bounds the spec requires of a validated ResearchConfig. -/
def inBounds (c : ResearchConfig) : Prop :=
  1 ≤ c.max_depth ∧ c.max_depth ≤ 10 ∧
  30 ≤ c.time_limit_seconds ∧ c.time_limit_seconds ≤ 300 ∧
  1 ≤ c.max_urls ∧ c.max_urls ≤ 100

instance (c : ResearchConfig) : Decidable (inBounds c) := by
  unfold inBounds; infer_instance

/-- The declaration of the single deep-research tool.
Modelled from the spec: ResearchEngine.get_tool_definition lives in the
absent core.py; section 6 of the spec declares one tool named
deep_research with a query parameter and the three bounded config fields. -/
structure ToolDef where
  name : String
deriving Repr, DecidableEq

/-- Modelled from the spec: the single tool returned by
research_engine.get_tool_definition(), named deep_research. -/
def get_tool_definition : ToolDef :=
  { name := "deep_research" }

/-- Everything main hands to chat_engine.stream_text_response for one user
request, together with the advisory UI hint (claude_deep_research_app.py
lines 144-184).  `messages` is claude_messages; `tools` is the literal
list [research_engine.get_tool_definition()]; `showResearchHint` records
whether the research-request info box is shown. -/
structure StreamCall where
  messages : List Message
  tools : List ToolDef
  showResearchHint : Bool
deriving Repr, DecidableEq

/-- Embeds the request-handling block of main (lines 144-184).
`claudeMessages` is the value of prepare_claude_messages over the prior
log (computed in core.py, opaque here); `userInput` is the chat input;
`maxDepth`, `timeLimit`, `maxUrls` are the three slider values in scope;
`mightNeedResearch` is research_engine.is_research_request(user_input).
The source appends the user message to claude_messages, shows the hint
when the decider fired, and calls stream_text_response with
claude_messages and [research_engine.get_tool_definition()]; the slider
values appear nowhere in that call. -/
def buildStreamCall (claudeMessages : List Message) (userInput : String)
    (maxDepth timeLimit maxUrls : Nat) (mightNeedResearch : Bool) : StreamCall :=
  { messages := claudeMessages ++ [{ role := "user", content := userInput }]
  , tools := [get_tool_definition]
  , showResearchHint := mightNeedResearch }

/-! ### Startup: get_core_components (lines 19-30) -/

/-- The exception raised while constructing ClientManager, ResearchEngine
and ChatEngine.  The source only distinguishes ValueError (raised by the
missing-credential check, per the spec the ConfigurationError class) from
any other exception class. -/
inductive BuildError where
  | valueError (msg : String)
  | otherError (msg : String)
deriving Repr, DecidableEq

/-- The components triple; their internals are irrelevant to the claims,
only that a constructed triple is handed to main. -/
structure Components where
  id : Nat
deriving Repr, DecidableEq

/-- Outcome of get_core_components: either the components are returned and
the app proceeds, or st.error plus st.stop halt the script before any user
request is accepted, or an uncaught exception escapes the except clause. -/
inductive StartupOutcome where
  | proceed (c : Components)
  | halt (operatorMessage : String)
  | escape (msg : String)
deriving Repr, DecidableEq

/-- Embeds get_core_components (lines 19-30): the construction of the
three components is tried; a ValueError is caught, surfaced via st.error
and followed by st.stop(); any other exception class is not caught. -/
def get_core_components (build : Except BuildError Components) : StartupOutcome :=
  match build with
  | .ok c => .proceed c
  | .error (.valueError m) => .halt ("Configuration error: " ++ m)
  | .error (.otherError m) => .escape m

/-! ### Session-state log (lines 99-101, 128-134, 144-189) -/

/-- One run-to-run operation on st.session_state.messages, read off main:
`scriptStart` is the initialization check at lines 128-134 (executed on
every script run), `clearChat` is the Clear Chat History button at lines
99-101, and `userTurn` is the request-handling block at lines 144-189
with the final assistant text it appends. -/
inductive SessionOp where
  | scriptStart
  | clearChat
  | userTurn (input response : String)
deriving Repr, DecidableEq

/-- The session state: `none` when the key messages is absent (a fresh
session), `some log` once it has been set. -/
def SessionState := Option (List Message)

/-- One step of main over the session log.  `welcome` is the
WELCOME_MESSAGE constant from the absent config.py (its text is opaque;
the source stores it with role assistant).  scriptStart adds the welcome
message only when the key is absent; clearChat sets the log to the empty
list; userTurn appends the user message before the orchestrator call and
the assistant response after it returns. -/
def stepSession (welcome : String) (s : SessionState) : SessionOp → SessionState
  | .scriptStart =>
    match s with
    | none => some [{ role := "assistant", content := welcome }]
    | some log => some log
  | .clearChat => some []
  | .userTurn input response =>
    some ((s.getD []) ++
      [{ role := "user", content := input },
       { role := "assistant", content := response }])

/-- The session log after a sequence of operations starting from a fresh
session (key absent). -/
def runSession (welcome : String) (ops : List SessionOp) : SessionState :=
  ops.foldl (stepSession welcome) none

/-- The messages held by a session state (empty when the key is absent). -/
def logOf (s : SessionState) : List Message :=
  s.getD []

/-! ### The per-request event trace of main (lines 144-192) -/

/-- The externally visible events of the request-handling block, in
source order.  `logAppend` is a mutation of st.session_state.messages;
`orchStart` and `orchEnd` bracket the chat_engine.stream_text_response
call (lines 180-184); `display` is a pure rendering action (st.markdown,
st.info, placeholder updates). -/
inductive ReqEvent where
  | logAppend (role content : String)
  | display
  | orchStart
  | orchEnd
deriving Repr, DecidableEq

/-- Whether an event mutates the session log. -/
def ReqEvent.isLogAppend : ReqEvent → Bool
  | .logAppend _ _ => true
  | _ => false

/-- Whether an event is the start of the orchestrator call. -/
def ReqEvent.isOrchStart : ReqEvent → Bool
  | .orchStart => true
  | _ => false

/-- Whether an event is the return of the orchestrator call. -/
def ReqEvent.isOrchEnd : ReqEvent → Bool
  | .orchEnd => true
  | _ => false

/-- The straight-line event trace of the `if user_input` block of main:
append the user message (line 146), display it (149-150), show status
(161-172), run the orchestrator (180-184), append the assistant response
(187-189).  `fullResponse` is the return value of stream_text_response. -/
def requestTrace (userInput fullResponse : String) : List ReqEvent :=
  [ .logAppend "user" userInput
  , .display
  , .display
  , .orchStart
  , .orchEnd
  , .logAppend "assistant" fullResponse ]

/-! ### The tool-orchestration loop

Modelled from the spec: ChatEngine.stream_text_response lives in the
absent core.py.  Sections 4.3, 4.4 and 5 of the spec describe it as a
state machine over a conversation of typed messages, driven by a model
turn per round, with a wall-clock deadline derived from
time_limit_seconds and a fixed cap on tool-use rounds.  Time is made
explicit: each blocking call (model turn, research request) carries the
duration its natural completion would take, and the loop abandons a call
whose duration would overrun the remaining budget. -/

/-- A tool invocation produced by the model: tool name, query argument,
the validated config the orchestrator will forward, and the correlation
token. -/
structure ToolInvocation where
  name : String
  query : String
  cfg : ResearchConfig
  call_id : Nat
deriving Repr, DecidableEq

/-- A tool result appended to the conversation: same correlation token,
findings or diagnostic text, and the error flag. -/
structure ToolResult where
  call_id : Nat
  content : String
  is_error : Bool
deriving Repr, DecidableEq

/-- A conversation message of the orchestration layer. -/
inductive ConvMessage where
  | user (content : String)
  | assistant (content : String)
  | toolCall (inv : ToolInvocation)
  | toolResult (res : ToolResult)
deriving Repr, DecidableEq

/-- Outcome of one resolved model turn (spec section 4.4): terminal text,
a completed tool invocation (name, query, correlation token), or an
unrecoverable transport or protocol error. -/
inductive TurnOutcome where
  | terminalText (text : String)
  | toolUse (name query : String) (call_id : Nat)
  | transportError (msg : String)
deriving Repr, DecidableEq

/-- Terminal states of the orchestrator (DONE, FAILED, TIMED_OUT). -/
inductive FinalState where
  | done
  | failed
  | timedOut
deriving Repr, DecidableEq

/-- What one run of the orchestrator produced: the terminal state, the
final text handed to the caller, the conversation as owned at the end,
the wall-clock time consumed, and the instrumentation needed by the
claims: every conversation sequence passed to the model, and every
(query, config) pair passed to the research provider. -/
structure RunResult where
  state : FinalState
  text : String
  conv : List ConvMessage
  elapsed : Nat
  modelCalls : List (List ConvMessage)
  providerCalls : List (String × ResearchConfig)
deriving Repr, DecidableEq

/-- The user-visible note appended when the deadline cuts research short
(spec section 4.3, transition to TIMED_OUT). -/
def truncationNotice : String :=
  " [Research was cut short: the configured time limit was reached.]"

/-- A model: a deterministic function from the conversation to the
resolved turn outcome and the duration the stream takes to resolve. -/
def Model := List ConvMessage → TurnOutcome × Nat

/-- A research provider: a function from query and config to the result
(findings or error message) and the natural duration of the request. -/
def Provider := String → ResearchConfig → Except String String × Nat

/-- The EXECUTING_TOOL step (spec section 4.3, transition 2): invoke the
provider with the query of the invocation plus the validated config,
bounded by the remaining budget.  If the natural duration of the call
overruns the remaining budget the call is abandoned.  Otherwise a
ToolResult with the same call_id is built: findings on success, an
is_error result with a short diagnostic on provider failure, and in both
cases the invocation and its result are appended and control returns to
AWAITING_MODEL. -/
inductive ToolStep where
  | resume (conv : List ConvMessage) (elapsed : Nat)
  | abandoned
deriving Repr, DecidableEq

def executeTool (provider : Provider) (cfg : ResearchConfig)
    (inv : ToolInvocation) (conv : List ConvMessage) (elapsed : Nat) : ToolStep :=
  match provider inv.query cfg with
  | (res, dp) =>
    if cfg.time_limit_seconds - elapsed < dp then
      .abandoned
    else
      let tr : ToolResult :=
        match res with
        | .ok findings => { call_id := inv.call_id, content := findings, is_error := false }
        | .error e => { call_id := inv.call_id, content := "Research failed: " ++ e, is_error := true }
      .resume (conv ++ [.toolCall inv, .toolResult tr]) (elapsed + dp)

/-- The TIMED_OUT result: best partial text plus the truncation notice,
with the clock pinned at the deadline. -/
def timedOutResult (cfg : ResearchConfig) (conv : List ConvMessage) (partialText : String)
    (mcs : List (List ConvMessage)) (pcs : List (String × ResearchConfig)) : RunResult :=
  { state := .timedOut, text := partialText ++ truncationNotice, conv := conv
  , elapsed := cfg.time_limit_seconds, modelCalls := mcs, providerCalls := pcs }

/-- Dispatch on the result of executeTool: an abandoned call times out,
a resumed one hands the updated conversation and clock to the
continuation (the loop back in AWAITING_MODEL). -/
def afterTool (k : List ConvMessage → Nat → RunResult) (timeoutRes : RunResult) :
    ToolStep → RunResult
  | .abandoned => timeoutRes
  | .resume conv2 elapsed2 => k conv2 elapsed2

/-- One AWAITING_MODEL round, given the resolved model turn and its
stream duration.  A turn whose stream would outlive the remaining budget
(`cfg.time_limit_seconds - elapsed`) is abandoned and the round
transitions to TIMED_OUT.  Otherwise terminal text is DONE, a transport
error is FAILED, and a tool invocation is executed via `executeTool`,
either resuming through the continuation `k` or timing out. -/
def handleTurn (k : List ConvMessage → Nat → List (List ConvMessage) →
      List (String × ResearchConfig) → RunResult)
    (provider : Provider) (cfg : ResearchConfig)
    (conv : List ConvMessage) (elapsed : Nat) (partialText : String)
    (mcs : List (List ConvMessage)) (pcs : List (String × ResearchConfig)) :
    TurnOutcome × Nat → RunResult
  | (.terminalText txt, d) =>
    if cfg.time_limit_seconds - elapsed < d then
      timedOutResult cfg conv partialText (mcs ++ [conv]) pcs
    else
      { state := .done, text := txt, conv := conv ++ [.assistant txt]
      , elapsed := elapsed + d, modelCalls := mcs ++ [conv], providerCalls := pcs }
  | (.transportError _, d) =>
    if cfg.time_limit_seconds - elapsed < d then
      timedOutResult cfg conv partialText (mcs ++ [conv]) pcs
    else
      { state := .failed, text := partialText, conv := conv
      , elapsed := elapsed + d, modelCalls := mcs ++ [conv], providerCalls := pcs }
  | (.toolUse name query id, d) =>
    if cfg.time_limit_seconds - elapsed < d then
      timedOutResult cfg conv partialText (mcs ++ [conv]) pcs
    else
      afterTool
        (fun conv2 elapsed2 => k conv2 elapsed2 (mcs ++ [conv]) (pcs ++ [(query, cfg)]))
        (timedOutResult cfg conv partialText (mcs ++ [conv]) (pcs ++ [(query, cfg)]))
        (executeTool provider cfg { name := name, query := query, cfg := cfg, call_id := id }
          conv (elapsed + d))

/-- The orchestration loop.  `fuel` is the remaining tool-use rounds (the
spec caps the loop at a fixed maximum, default 5).  `elapsed` is the
wall-clock time consumed so far; the deadline is
`cfg.time_limit_seconds`.  Each round requests a model turn with the
remaining budget and dispatches on the resolved outcome via
`handleTurn`; the continuation runs the next round. -/
def loop (model : Model) (provider : Provider) (cfg : ResearchConfig) :
    Nat → List ConvMessage → Nat → String →
    List (List ConvMessage) → List (String × ResearchConfig) → RunResult
  | 0, conv, elapsed, partialText, mcs, pcs =>
    { state := .failed, text := partialText, conv := conv, elapsed := elapsed
    , modelCalls := mcs, providerCalls := pcs }
  | fuel + 1, conv, elapsed, partialText, mcs, pcs =>
    handleTurn
      (fun conv2 elapsed2 mcs2 pcs2 =>
        loop model provider cfg fuel conv2 elapsed2 partialText mcs2 pcs2)
      provider cfg conv elapsed partialText mcs pcs (model conv)

/-- The caller-facing entry point (spec section 6): run the loop from
AWAITING_MODEL over the supplied conversation, with zero elapsed time,
empty partial text and empty instrumentation. -/
def respond (model : Model) (provider : Provider) (cfg : ResearchConfig)
    (fuel : Nat) (conv : List ConvMessage) : RunResult :=
  loop model provider cfg fuel conv 0 "" [] []

/-- A conversation is resolved when every ToolInvocation in it is
immediately followed by a ToolResult carrying the same call_id. -/
def resolved : List ConvMessage → Bool
  | [] => true
  | .toolCall inv :: rest =>
    match rest with
    | .toolResult res :: rest2 => res.call_id == inv.call_id && resolved rest2
    | _ => false
  | .user _ :: rest => resolved rest
  | .assistant _ :: rest => resolved rest
  | .toolResult _ :: rest => resolved rest

/-! ### Concrete scenario instances (used by witnesses) -/

/-- Whether a conversation already contains a tool result. -/
def hasToolResult (conv : List ConvMessage) : Bool :=
  conv.any fun m =>
    match m with
    | .toolResult _ => true
    | _ => false

/-- A demo config within the slider bounds. -/
def demoCfg : ResearchConfig :=
  { max_depth := 3, time_limit_seconds := 60, max_urls := 10 }

/-- A demo model that first requests research, then answers from the
findings (scenario B of the spec). -/
def researchModel : Model := fun conv =>
  if hasToolResult conv then (.terminalText "Findings say X.", 3)
  else (.toolUse "deep_research" "latest developments" 7, 2)

/-- A demo model that answers directly (scenario A of the spec). -/
def directModel : Model := fun _ => (.terminalText "Four.", 5)

/-- A demo model whose stream takes longer than any demo budget. -/
def slowModel : Model := fun _ => (.terminalText "late answer", 1000)

/-- A demo provider that succeeds quickly. -/
def okProvider : Provider := fun _ _ => (.ok "structured findings", 4)

/-- A demo provider that fails quickly (HTTP error). -/
def failProvider : Provider := fun _ _ => (.error "HTTP 500", 4)

end DeepResearch

namespace DeepResearch

/-! ## Theorems -/

/-- C1.  The claim says the slider values (max_depth, time_limit,
max_urls) are passed through untouched into the tool invocation payload
sent with the model call.  In the source they are not: main reads them
into local variables and then calls stream_text_response with only
claude_messages, the constant tool list and the placeholder, so the call
payload is identical for any two slider settings.  The slider values
cannot reach the tool invocation at all. -/
theorem streamCall_ignores_sliders (claudeMessages : List Message) (userInput : String)
    (d₁ t₁ u₁ d₂ t₂ u₂ : Nat) (b : Bool) :
    buildStreamCall claudeMessages userInput d₁ t₁ u₁ b =
      buildStreamCall claudeMessages userInput d₂ t₂ u₂ b := rfl

/-- C4.  The tool list offered to the model is always the single
deep-research tool, whatever boolean the research decider returned; the
decider only drives the UI hint. -/
theorem tools_independent_of_decider (claudeMessages : List Message) (userInput : String)
    (maxDepth timeLimit maxUrls : Nat) (b : Bool) :
    (buildStreamCall claudeMessages userInput maxDepth timeLimit maxUrls b).tools
        = [get_tool_definition] ∧
    (buildStreamCall claudeMessages userInput maxDepth timeLimit maxUrls b).showResearchHint
        = b :=
  ⟨rfl, rfl⟩

/-- C7.  Component construction failing with a ValueError (the
configuration error for missing credentials) halts the script with the
error surfaced to the operator, so the app never proceeds to accept user
requests; conversely, only a ValueError produces that halt (no other
error class is caught and stopped), and successful construction
proceeds with the components. -/
theorem configuration_error_is_fatal (build : Except BuildError Components) :
    (∀ m, build = .error (.valueError m) →
      get_core_components build = .halt ("Configuration error: " ++ m)) ∧
    (∀ o, get_core_components build = .halt o →
      ∃ m, build = .error (.valueError m) ∧ o = "Configuration error: " ++ m) ∧
    (∀ c, build = .ok c → get_core_components build = .proceed c) := by
  refine ⟨?_, ?_, ?_⟩
  · intro m hm; subst hm; rfl
  · intro o ho
    match build, ho with
    | .error (.valueError m), ho =>
      exact ⟨m, rfl, by simpa [get_core_components] using ho.symm⟩
  · intro c hc; subst hc; rfl

/-- C7 witness: a missing-credential ValueError at startup halts with the
surfaced message. -/
theorem configuration_error_is_fatal_witness :
    get_core_components (.error (.valueError "ANTHROPIC_API_KEY is not set"))
      = .halt ("Configuration error: " ++ "ANTHROPIC_API_KEY is not set") :=
  (configuration_error_is_fatal (.error (.valueError "ANTHROPIC_API_KEY is not set"))).1
    "ANTHROPIC_API_KEY is not set" rfl

/-- The events strictly between orchStart and orchEnd in a trace. -/
def duringOrchestrator (tr : List ReqEvent) : List ReqEvent :=
  ((tr.dropWhile (fun e => !e.isOrchStart)).drop 1).takeWhile
    (fun e => !e.isOrchEnd)

/-- The events after orchEnd in a trace. -/
def afterOrchestrator (tr : List ReqEvent) : List ReqEvent :=
  (tr.dropWhile (fun e => !e.isOrchEnd)).drop 1

/-- C8.  During the orchestrator call no event happens at all (in
particular no session-log mutation); the only event after the
orchestrator returns is appending the assistant response; and the only
log mutations of the whole request are the user append (before the
orchestrator) and the assistant append (after it). -/
theorem log_untouched_while_orchestrator_runs (userInput fullResponse : String) :
    duringOrchestrator (requestTrace userInput fullResponse) = [] ∧
    afterOrchestrator (requestTrace userInput fullResponse)
      = [ReqEvent.logAppend "assistant" fullResponse] ∧
    (requestTrace userInput fullResponse).filter (fun e => e.isLogAppend)
      = [ReqEvent.logAppend "user" userInput,
         ReqEvent.logAppend "assistant" fullResponse] := by
  refine ⟨?_, ?_, ?_⟩ <;>
    simp [duringOrchestrator, afterOrchestrator, requestTrace, ReqEvent.isLogAppend,
      ReqEvent.isOrchStart, ReqEvent.isOrchEnd, List.dropWhile, List.takeWhile, List.filter]

/-- C10.  Every message ever stored in the session log has role user or
assistant; clearing the chat and rerunning the script leaves the log
empty with no welcome message re-added; and a fresh session is
initialized with exactly the single assistant welcome message. -/
theorem session_log_roles (welcome : String) (ops : List SessionOp) :
    ((logOf (runSession welcome ops)).all
      (fun m => m.role == "user" || m.role == "assistant")) = true ∧
    runSession welcome (ops ++ [SessionOp.clearChat, SessionOp.scriptStart]) = some [] ∧
    runSession welcome [SessionOp.scriptStart]
      = some [{ role := "assistant", content := welcome }] := by
  refine ⟨?_, ?_, ?_⟩
  · have key : ∀ (l : List SessionOp) (s : SessionState),
        (logOf s).all (fun m => m.role == "user" || m.role == "assistant") = true →
        (logOf (l.foldl (stepSession welcome) s)).all
          (fun m => m.role == "user" || m.role == "assistant") = true := by
      intro l
      induction l with
      | nil => intro s hs; simpa using hs
      | cons op rest ih =>
        intro s hs
        refine ih (stepSession welcome s op) ?_
        cases op with
        | scriptStart =>
          cases s with
          | none => simp [stepSession, logOf]
          | some log => simpa [stepSession, logOf] using hs
        | clearChat => simp [stepSession, logOf]
        | userTurn input response =>
          simp [stepSession, logOf, List.all_append]
          simpa [logOf] using hs
    exact key ops none (by simp [logOf])
  · show ((ops ++ [SessionOp.clearChat, SessionOp.scriptStart]).foldl
      (stepSession welcome) none) = some []
    rw [List.foldl_append]
    rfl
  · rfl

/-! ### Helper lemmas about the orchestration loop -/

/-- Appending a tool invocation immediately followed by its matching
result preserves resolvedness of a conversation. -/
theorem resolved_append_pair (inv : ToolInvocation) (tr : ToolResult)
    (hid : tr.call_id = inv.call_id) :
    ∀ conv : List ConvMessage, resolved conv = true →
      resolved (conv ++ [ConvMessage.toolCall inv, ConvMessage.toolResult tr]) = true
  | [], _ => by simp [resolved, hid]
  | ConvMessage.user c :: rest, h => by
    have hr : resolved rest = true := by simpa [resolved] using h
    simpa [resolved] using resolved_append_pair inv tr hid rest hr
  | ConvMessage.assistant c :: rest, h => by
    have hr : resolved rest = true := by simpa [resolved] using h
    simpa [resolved] using resolved_append_pair inv tr hid rest hr
  | ConvMessage.toolResult r :: rest, h => by
    have hr : resolved rest = true := by simpa [resolved] using h
    simpa [resolved] using resolved_append_pair inv tr hid rest hr
  | ConvMessage.toolCall i :: rest, h => by
    match rest, h with
    | [], h => simp [resolved] at h
    | ConvMessage.user c :: rest2, h => simp [resolved] at h
    | ConvMessage.assistant c :: rest2, h => simp [resolved] at h
    | ConvMessage.toolCall i2 :: rest2, h => simp [resolved] at h
    | ConvMessage.toolResult r :: rest2, h =>
      have h2 : (r.call_id == i.call_id) = true ∧ resolved rest2 = true := by
        simpa [resolved, Bool.and_eq_true] using h
      have ih := resolved_append_pair inv tr hid rest2 h2.2
      simp [resolved, h2.1, ih]

/-- When executeTool resumes, the new conversation is the old one with
the invocation and its matching result appended, so it stays resolved. -/
theorem executeTool_resume_resolved (provider : Provider) (cfg : ResearchConfig)
    (inv : ToolInvocation) (conv : List ConvMessage) (e : Nat)
    (conv2 : List ConvMessage) (e2 : Nat)
    (h : executeTool provider cfg inv conv e = .resume conv2 e2)
    (hr : resolved conv = true) : resolved conv2 = true := by
  rcases hp : provider inv.query cfg with ⟨res, dp⟩
  rw [executeTool, hp] at h
  by_cases hc : cfg.time_limit_seconds - e < dp
  · simp [hc] at h
  · cases res with
    | ok findings =>
      simp only [hc, if_false] at h
      have hconv : conv2 = conv ++
          [ConvMessage.toolCall inv,
           ConvMessage.toolResult { call_id := inv.call_id, content := findings, is_error := false }] :=
        (ToolStep.resume.injEq _ _ _ _).mp h.symm |>.1
      rw [hconv]
      exact resolved_append_pair inv _ rfl conv hr
    | error msg =>
      simp only [hc, if_false] at h
      have hconv : conv2 = conv ++
          [ConvMessage.toolCall inv,
           ConvMessage.toolResult
             { call_id := inv.call_id, content := "Research failed: " ++ msg, is_error := true }] :=
        (ToolStep.resume.injEq _ _ _ _).mp h.symm |>.1
      rw [hconv]
      exact resolved_append_pair inv _ rfl conv hr

/-- When executeTool resumes, the elapsed clock stays within the
configured time limit. -/
theorem executeTool_resume_le (provider : Provider) (cfg : ResearchConfig)
    (inv : ToolInvocation) (conv : List ConvMessage) (e : Nat)
    (conv2 : List ConvMessage) (e2 : Nat)
    (h : executeTool provider cfg inv conv e = .resume conv2 e2)
    (he : e ≤ cfg.time_limit_seconds) : e2 ≤ cfg.time_limit_seconds := by
  rcases hp : provider inv.query cfg with ⟨res, dp⟩
  rw [executeTool, hp] at h
  by_cases hc : cfg.time_limit_seconds - e < dp
  · simp [hc] at h
  · have he2 : e2 = e + dp := by
      cases res with
      | ok f =>
        simp only [hc, if_false] at h
        injection h with h1 h2
        exact h2.symm
      | error m =>
        simp only [hc, if_false] at h
        injection h with h1 h2
        exact h2.symm
    omega

/-- Every conversation the loop hands to the model is resolved, provided
the starting conversation and the already-recorded ones are. -/
theorem loop_modelCalls_all_resolved (model : Model) (provider : Provider)
    (cfg : ResearchConfig) :
    ∀ (fuel : Nat) (conv : List ConvMessage) (elapsed : Nat) (partialText : String)
      (mcs : List (List ConvMessage)) (pcs : List (String × ResearchConfig)),
      resolved conv = true → mcs.all resolved = true →
      (loop model provider cfg fuel conv elapsed partialText mcs pcs).modelCalls.all
        resolved = true := by
  intro fuel
  induction fuel with
  | zero =>
    intro conv elapsed partialText mcs pcs h1 h2
    simpa [loop] using h2
  | succ n ih =>
    intro conv elapsed partialText mcs pcs h1 h2
    have hall : (mcs ++ [conv]).all resolved = true := by
      simp [List.all_append, h2, h1]
    rcases hm : model conv with ⟨o, d⟩
    rw [loop, hm]
    cases o with
    | terminalText t =>
      by_cases hc : cfg.time_limit_seconds - elapsed < d
      · simpa [handleTurn, hc, timedOutResult] using hall
      · simpa [handleTurn, hc] using hall
    | transportError m =>
      by_cases hc : cfg.time_limit_seconds - elapsed < d
      · simpa [handleTurn, hc, timedOutResult] using hall
      · simpa [handleTurn, hc] using hall
    | toolUse name query id =>
      by_cases hc : cfg.time_limit_seconds - elapsed < d
      · simpa [handleTurn, hc, timedOutResult] using hall
      · simp only [handleTurn, hc, if_false]
        rcases het : executeTool provider cfg
            { name := name, query := query, cfg := cfg, call_id := id }
            conv (elapsed + d) with ⟨conv2, elapsed2⟩ | _
        · have hres : resolved conv2 = true :=
            executeTool_resume_resolved provider cfg _ conv (elapsed + d) conv2 elapsed2 het h1
          simpa [afterTool] using
            ih conv2 elapsed2 partialText (mcs ++ [conv]) (pcs ++ [(query, cfg)]) hres hall
        · simpa [afterTool, timedOutResult] using hall

/-- The elapsed clock of a loop run never exceeds the time limit. -/
theorem loop_elapsed_le (model : Model) (provider : Provider) (cfg : ResearchConfig) :
    ∀ (fuel : Nat) (conv : List ConvMessage) (elapsed : Nat) (partialText : String)
      (mcs : List (List ConvMessage)) (pcs : List (String × ResearchConfig)),
      elapsed ≤ cfg.time_limit_seconds →
      (loop model provider cfg fuel conv elapsed partialText mcs pcs).elapsed
        ≤ cfg.time_limit_seconds := by
  intro fuel
  induction fuel with
  | zero =>
    intro conv elapsed partialText mcs pcs he
    simpa [loop] using he
  | succ n ih =>
    intro conv elapsed partialText mcs pcs he
    rcases hm : model conv with ⟨o, d⟩
    rw [loop, hm]
    cases o with
    | terminalText t =>
      by_cases hc : cfg.time_limit_seconds - elapsed < d
      · simp [handleTurn, hc, timedOutResult]
      · simp [handleTurn, hc]; omega
    | transportError m =>
      by_cases hc : cfg.time_limit_seconds - elapsed < d
      · simp [handleTurn, hc, timedOutResult]
      · simp [handleTurn, hc]; omega
    | toolUse name query id =>
      by_cases hc : cfg.time_limit_seconds - elapsed < d
      · simp [handleTurn, hc, timedOutResult]
      · simp only [handleTurn, hc, if_false]
        rcases het : executeTool provider cfg
            { name := name, query := query, cfg := cfg, call_id := id }
            conv (elapsed + d) with ⟨conv2, elapsed2⟩ | _
        · have he2 : elapsed2 ≤ cfg.time_limit_seconds :=
            executeTool_resume_le provider cfg _ conv (elapsed + d) conv2 elapsed2 het (by omega)
          simpa [afterTool] using
            ih conv2 elapsed2 partialText (mcs ++ [conv]) (pcs ++ [(query, cfg)]) he2
        · simp [afterTool, timedOutResult]

/-- Whenever a loop run ends in TIMED_OUT, its text is the partial text
of some round followed by the truncation notice. -/
theorem loop_timedOut_text (model : Model) (provider : Provider) (cfg : ResearchConfig) :
    ∀ (fuel : Nat) (conv : List ConvMessage) (elapsed : Nat) (partialText : String)
      (mcs : List (List ConvMessage)) (pcs : List (String × ResearchConfig)),
      (loop model provider cfg fuel conv elapsed partialText mcs pcs).state = .timedOut →
      ∃ p, (loop model provider cfg fuel conv elapsed partialText mcs pcs).text
        = p ++ truncationNotice := by
  intro fuel
  induction fuel with
  | zero =>
    intro conv elapsed partialText mcs pcs hstate
    simp [loop] at hstate
  | succ n ih =>
    intro conv elapsed partialText mcs pcs hstate
    rcases hm : model conv with ⟨o, d⟩
    rw [loop, hm] at hstate ⊢
    cases o with
    | terminalText t =>
      by_cases hc : cfg.time_limit_seconds - elapsed < d
      · exact ⟨partialText, by simp [handleTurn, hc, timedOutResult]⟩
      · simp [handleTurn, hc] at hstate
    | transportError m =>
      by_cases hc : cfg.time_limit_seconds - elapsed < d
      · exact ⟨partialText, by simp [handleTurn, hc, timedOutResult]⟩
      · simp [handleTurn, hc] at hstate
    | toolUse name query id =>
      by_cases hc : cfg.time_limit_seconds - elapsed < d
      · exact ⟨partialText, by simp [handleTurn, hc, timedOutResult]⟩
      · simp only [handleTurn, hc, if_false] at hstate ⊢
        rcases het : executeTool provider cfg
            { name := name, query := query, cfg := cfg, call_id := id }
            conv (elapsed + d) with ⟨conv2, elapsed2⟩ | _
        · rw [het] at hstate
          simp only [afterTool] at hstate ⊢
          exact ih conv2 elapsed2 partialText (mcs ++ [conv]) (pcs ++ [(query, cfg)]) hstate
        · exact ⟨partialText, by simp [afterTool, timedOutResult]⟩

/-- Every provider call the loop records carries the validated config
passed to the loop, hence satisfies any predicate the config satisfies. -/
theorem loop_providerCalls_all (model : Model) (provider : Provider) (cfg : ResearchConfig)
    (P : String × ResearchConfig → Bool) (hP : ∀ q, P (q, cfg) = true) :
    ∀ (fuel : Nat) (conv : List ConvMessage) (elapsed : Nat) (partialText : String)
      (mcs : List (List ConvMessage)) (pcs : List (String × ResearchConfig)),
      pcs.all P = true →
      (loop model provider cfg fuel conv elapsed partialText mcs pcs).providerCalls.all
        P = true := by
  intro fuel
  induction fuel with
  | zero =>
    intro conv elapsed partialText mcs pcs hpcs
    simpa [loop] using hpcs
  | succ n ih =>
    intro conv elapsed partialText mcs pcs hpcs
    rcases hm : model conv with ⟨o, d⟩
    rw [loop, hm]
    cases o with
    | terminalText t =>
      by_cases hc : cfg.time_limit_seconds - elapsed < d
      · simpa [handleTurn, hc, timedOutResult] using hpcs
      · simpa [handleTurn, hc] using hpcs
    | transportError m =>
      by_cases hc : cfg.time_limit_seconds - elapsed < d
      · simpa [handleTurn, hc, timedOutResult] using hpcs
      · simpa [handleTurn, hc] using hpcs
    | toolUse name query id =>
      have hpcs2 : (pcs ++ [(query, cfg)]).all P = true := by
        simp [List.all_append, hpcs, hP]
      by_cases hc : cfg.time_limit_seconds - elapsed < d
      · simpa [handleTurn, hc, timedOutResult] using hpcs
      · simp only [handleTurn, hc, if_false]
        rcases het : executeTool provider cfg
            { name := name, query := query, cfg := cfg, call_id := id }
            conv (elapsed + d) with ⟨conv2, elapsed2⟩ | _
        · simpa [afterTool] using
            ih conv2 elapsed2 partialText (mcs ++ [conv]) (pcs ++ [(query, cfg)]) hpcs2
        · simpa [afterTool, timedOutResult] using hpcs2

/-! ### Claims about the orchestration loop -/

/-- C2.  Every conversation sequence the orchestrator passes to the model
on any turn is free of dangling tool invocations: each ToolInvocation is
immediately followed by its matching ToolResult, because the invocation
and its result are appended together before the next model call. -/
theorem model_never_sees_dangling_invocation (model : Model) (provider : Provider)
    (cfg : ResearchConfig) (fuel : Nat) (conv : List ConvMessage)
    (h : resolved conv = true) :
    ((respond model provider cfg fuel conv).modelCalls.all resolved) = true :=
  loop_modelCalls_all_resolved model provider cfg fuel conv 0 "" [] [] h rfl

/-- C2 witness: a run that does one research round passes only resolved
conversations to the model. -/
theorem model_never_sees_dangling_invocation_witness :
    resolved [ConvMessage.user "hi"] = true ∧
    ((respond researchModel okProvider demoCfg 5 [ConvMessage.user "hi"]).modelCalls.all
      resolved) = true :=
  ⟨rfl, model_never_sees_dangling_invocation researchModel okProvider demoCfg 5
    [ConvMessage.user "hi"] rfl⟩

/-- C3.  A config built from the sidebar sliders always satisfies the
contract bounds, and every research-provider call the loop issues
carries exactly such an in-bounds config: out-of-range raw selections
are clamped at the boundary and never reach the provider. -/
theorem provider_only_sees_bounded_config (rawDepth rawTime rawUrls : Nat)
    (model : Model) (provider : Provider) (fuel : Nat) (conv : List ConvMessage) :
    inBounds (sliderConfig rawDepth rawTime rawUrls) ∧
    ((respond model provider (sliderConfig rawDepth rawTime rawUrls) fuel
        conv).providerCalls.all (fun pc => decide (inBounds pc.2))) = true := by
  constructor
  · unfold inBounds sliderConfig slider
    refine ⟨?_, ?_, ?_, ?_, ?_, ?_⟩ <;> simp
  · refine loop_providerCalls_all model provider _ _ (fun q => ?_) fuel conv 0 "" [] [] rfl
    simp only [decide_eq_true_eq]
    unfold inBounds sliderConfig slider
    refine ⟨?_, ?_, ?_, ?_, ?_, ?_⟩ <;> simp

/-- C5.  When the provider call fails within the remaining budget, the
round is not aborted: the loop appends the invocation together with a
ToolResult carrying is_error = true and a short diagnostic, and
transitions back to AWAITING_MODEL (the recursive loop round on the
extended conversation). -/
theorem provider_failure_recovers (model : Model) (provider : Provider)
    (cfg : ResearchConfig) (fuel : Nat) (conv : List ConvMessage) (elapsed : Nat)
    (partialText : String) (mcs : List (List ConvMessage))
    (pcs : List (String × ResearchConfig))
    (name query : String) (id : Nat) (dm : Nat) (e : String) (dp : Nat)
    (hm : model conv = (.toolUse name query id, dm))
    (hdm : ¬ cfg.time_limit_seconds - elapsed < dm)
    (hp : provider query cfg = (.error e, dp))
    (hdp : ¬ cfg.time_limit_seconds - (elapsed + dm) < dp) :
    loop model provider cfg (fuel + 1) conv elapsed partialText mcs pcs =
      loop model provider cfg fuel
        (conv ++
          [ConvMessage.toolCall { name := name, query := query, cfg := cfg, call_id := id },
           ConvMessage.toolResult
             { call_id := id, content := "Research failed: " ++ e, is_error := true }])
        (elapsed + dm + dp) partialText (mcs ++ [conv]) (pcs ++ [(query, cfg)]) := by
  rw [loop, hm]
  simp only [handleTurn, hdm, if_false]
  rw [executeTool]
  simp only [hp]
  simp [hdp, afterTool]

/-- C5 witness: a failing provider call on a concrete run appends the
error ToolResult and the loop keeps going. -/
theorem provider_failure_recovers_witness :
    loop researchModel failProvider demoCfg (4 + 1) [ConvMessage.user "r"] 0 "" [] [] =
      loop researchModel failProvider demoCfg 4
        ([ConvMessage.user "r"] ++
          [ConvMessage.toolCall
             { name := "deep_research", query := "latest developments", cfg := demoCfg
             , call_id := 7 },
           ConvMessage.toolResult
             { call_id := 7, content := "Research failed: " ++ "HTTP 500", is_error := true }])
        (0 + 2 + 4) "" ([] ++ [[ConvMessage.user "r"]])
        ([] ++ [("latest developments", demoCfg)]) :=
  provider_failure_recovers researchModel failProvider demoCfg 4 [ConvMessage.user "r"] 0 ""
    [] [] "deep_research" "latest developments" 7 2 "HTTP 500" 4
    rfl (by decide) rfl (by decide)

/-- C6.  The loop never waits out a blocking call past the deadline: the
total elapsed clock of any run is at most time_limit_seconds, and a run
that ends in TIMED_OUT returns its best partial text followed by the
non-empty truncation notice. -/
theorem deadline_bounds_loop (model : Model) (provider : Provider) (cfg : ResearchConfig)
    (fuel : Nat) (conv : List ConvMessage) :
    (respond model provider cfg fuel conv).elapsed ≤ cfg.time_limit_seconds ∧
    ((respond model provider cfg fuel conv).state = FinalState.timedOut →
      truncationNotice ≠ "" ∧
      ∃ p, (respond model provider cfg fuel conv).text = p ++ truncationNotice) := by
  refine ⟨loop_elapsed_le model provider cfg fuel conv 0 "" [] [] (Nat.zero_le _), ?_⟩
  intro hs
  exact ⟨by decide, loop_timedOut_text model provider cfg fuel conv 0 "" [] [] hs⟩

/-- C6 witness: with a model stream that would take 1000 seconds against
a 60 second budget, the run still finishes within the budget. -/
theorem deadline_bounds_loop_witness :
    (respond slowModel okProvider demoCfg 5 [ConvMessage.user "q"]).elapsed
      ≤ demoCfg.time_limit_seconds :=
  (deadline_bounds_loop slowModel okProvider demoCfg 5 [ConvMessage.user "q"]).1

/-- C9.  Two independent invocations over the same conversation, with
models that deterministically resolve that conversation to the same
terminal text within the budget, return the same final text, whatever
provider state either invocation holds. -/
theorem respond_deterministic_terminal (m₁ m₂ : Model) (p₁ p₂ : Provider)
    (cfg : ResearchConfig) (fuel : Nat) (conv : List ConvMessage)
    (t : String) (d₁ d₂ : Nat)
    (h₁ : m₁ conv = (.terminalText t, d₁)) (h₂ : m₂ conv = (.terminalText t, d₂))
    (hd₁ : ¬ cfg.time_limit_seconds < d₁) (hd₂ : ¬ cfg.time_limit_seconds < d₂) :
    (respond m₁ p₁ cfg (fuel + 1) conv).text = t ∧
    (respond m₂ p₂ cfg (fuel + 1) conv).text =
      (respond m₁ p₁ cfg (fuel + 1) conv).text := by
  have k₁ : (respond m₁ p₁ cfg (fuel + 1) conv).text = t := by
    show (loop m₁ p₁ cfg (fuel + 1) conv 0 "" [] []).text = t
    rw [loop, h₁]
    simp [handleTurn, hd₁]
  have k₂ : (respond m₂ p₂ cfg (fuel + 1) conv).text = t := by
    show (loop m₂ p₂ cfg (fuel + 1) conv 0 "" [] []).text = t
    rw [loop, h₂]
    simp [handleTurn, hd₂]
  exact ⟨k₁, k₂.trans k₁.symm⟩

/-- C9 witness: two runs holding different provider state return the
same final text for the same direct question. -/
theorem respond_deterministic_terminal_witness :
    (respond directModel okProvider demoCfg (4 + 1) [ConvMessage.user "What is 2+2?"]).text
      = "Four." ∧
    (respond directModel failProvider demoCfg (4 + 1) [ConvMessage.user "What is 2+2?"]).text
      = (respond directModel okProvider demoCfg (4 + 1) [ConvMessage.user "What is 2+2?"]).text :=
  respond_deterministic_terminal directModel directModel okProvider failProvider demoCfg 4
    [ConvMessage.user "What is 2+2?"] "Four." 5 5 rfl rfl (by decide) (by decide)

end DeepResearch
